import Mathlib

/-!
Verification of the retry/backoff, rate-limiting, background-task and bounded-gather
core of the news_fetcher repository, shallowly embedded from:
  - news_fetcher/api/base.py          (BaseAPIClient._rate_limit, request_with_retries)
  - news_fetcher/api/openrouter_api.py (OpenRouterAPIClient.generate_completion)
  - news_fetcher/utils/async_utils.py  (BackgroundTaskProcessor, gather_with_concurrency)
-/

namespace NewsFetcher

/-- Outcome of one physical HTTP attempt as seen inside `request_with_retries`:
`sendError` models `session.request` raising or `raise_for_status` firing on a
non-2xx status (a `RequestException`); `decodeError` models `response.json()`
failing; `ok body` models a 2xx response with decodable body `body`. -/
inductive NetOutcome (α : Type) where
  | sendError (msg : String)
  | decodeError (msg : String)
  | ok (body : α)
deriving DecidableEq

/-- The Python exceptions that the embedded code raises or catches. -/
inductive PyExc where
  | requestExc (msg : String)
  | valueError (msg : String)
  | keyError (msg : String)
  | timeoutError (msg : String)
deriving DecidableEq

/-- Lines 105-125 of base.py: one attempt of the try-block. The network's behaviour
on attempt `i` is given by `net i`. A send error or decode error is caught by the
`except (RequestException, ValueError)` clause; a validator rejection raises
`ValueError("Response validation failed")` (line 123). -/
def attemptRequest {α : Type} (net : Nat → NetOutcome α) (validator : Option (α → Bool))
    (i : Nat) : Except PyExc α :=
  match net i with
  | NetOutcome.sendError m => Except.error (PyExc.requestExc m)
  | NetOutcome.decodeError m => Except.error (PyExc.valueError m)
  | NetOutcome.ok body =>
    match validator with
    | some v =>
      if v body then Except.ok body
      else Except.error (PyExc.valueError "Response validation failed")
    | none => Except.ok body

/-- How a call to `request_with_retries` terminates: returning the decoded payload,
returning Python `None`, or raising an exception. -/
inductive ReqResult (α : Type) where
  | success (payload : α)
  | returnedNone
  | raised (e : PyExc)
deriving DecidableEq

/-- Result of `request_with_retries` together with its observable side effects:
`sends` counts calls to `session.request`, `sleeps` lists the backoff
`time.sleep` amounts performed, in order. -/
structure ReqTrace (α : Type) where
  result : ReqResult α
  sends : Nat
  sleeps : List Nat
deriving DecidableEq

/-- Lines 104-139 of base.py, the `for attempt in range(self.max_retries + 1)` loop.
The range is nonempty (`max_retries + 1 ≥ 1`) and every branch of the loop body
leaves the function: a successful attempt returns the data (line 125); a caught
failure with `attempt < max_retries` sleeps the backoff delay
`retry_delay * 2 ** attempt` and then executes `return None` (lines 130-135,
there is no path that continues to the next iteration); otherwise the exception
is re-raised (line 138). Hence only `attempt = 0` ever executes, and the trailing
`return None` at line 139 is dead code. -/
def request_with_retries {α : Type} (net : Nat → NetOutcome α)
    (validator : Option (α → Bool)) (maxRetries retryDelay : Nat) : ReqTrace α :=
  match attemptRequest net validator 0 with
  | Except.ok data => ⟨ReqResult.success data, 1, []⟩
  | Except.error e =>
    if 0 < maxRetries then
      ⟨ReqResult.returnedNone, 1, [retryDelay * 2 ^ 0]⟩
    else
      ⟨ReqResult.raised e, 1, []⟩

/-- A network that fails every attempt with a connection error. -/
def netAlwaysError : Nat → NetOutcome Nat :=
  fun _ => NetOutcome.sendError "connection error"

/-- A network that always answers 2xx with decodable body `7`. -/
def netAlwaysOk : Nat → NetOutcome Nat :=
  fun _ => NetOutcome.ok 7

/-- A network that fails the first `k` attempts and then succeeds with body `42`. -/
def netFailThenOk (k : Nat) : Nat → NetOutcome Nat :=
  fun i => if i < k then NetOutcome.sendError "timeout" else NetOutcome.ok 42

/-- Claim C1: the claim states that when every attempt fails (also when the
validator rejects every decoded body), `request_with_retries` raises after
exactly `max_retries + 1` attempts. The code instead performs exactly one send
and then returns `None` (after sleeping the first backoff) whenever
`max_retries > 0`: at `max_retries = 3`, `retry_delay = 1`, an always-failing
network and an always-rejecting validator each produce one send, one sleep and
a `None` return, not a raise after `3 + 1` attempts. -/
theorem requestExhaustion_C1 :
    request_with_retries netAlwaysError none 3 1
      = ⟨ReqResult.returnedNone, 1, [1]⟩ ∧
    request_with_retries netAlwaysOk (some fun _ => false) 3 1
      = ⟨ReqResult.returnedNone, 1, [1]⟩ ∧
    (request_with_retries netAlwaysError none 3 1).sends ≠ 3 + 1 := by
  refine ⟨rfl, rfl, by decide⟩

/-- Claim C2: the claim states that `request_with_retries` never returns `None`.
At `max_retries = 2` with a body that never decodes, the call returns Python
`None` (a silent partial result) rather than a payload or a raised error. -/
theorem requestSilentNone_C2 :
    (request_with_retries (fun _ => NetOutcome.decodeError "invalid json")
      (none : Option (Nat → Bool)) 2 5).result = ReqResult.returnedNone := rfl

/-- Claim C3: the claim states that `max_retries` transient failures followed by
one success yield the success payload after total backoff
`retry_delay * (2 ^ 0 + 2 ^ 1 + 2 ^ 2)`. At `max_retries = 3`, `retry_delay = 2`,
against a network failing exactly 3 times then succeeding, the code sleeps only
the first backoff (2 seconds, not 14) and returns `None`, never reaching the
successful attempt. -/
theorem requestBackoff_C3 :
    request_with_retries (netFailThenOk 3) none 3 2
      = ⟨ReqResult.returnedNone, 1, [2]⟩ ∧
    (request_with_retries (netFailThenOk 3) none 3 2).sleeps.sum
      ≠ 2 * (2 ^ 0 + 2 ^ 1 + 2 ^ 2) ∧
    (request_with_retries (netFailThenOk 3) none 3 2).result
      ≠ ReqResult.success 42 := by
  refine ⟨rfl, by decide, by decide⟩

/-- Claim C7: if the first attempt returns 2xx with a decodable body accepted by
the validator (when one is supplied), the call returns that payload with exactly
one network send and no backoff sleep. -/
theorem requestFirstSuccess_C7 {α : Type} (net : Nat → NetOutcome α)
    (validator : Option (α → Bool)) (maxRetries retryDelay : Nat) (body : α)
    (hnet : net 0 = NetOutcome.ok body)
    (hval : ∀ v, validator = some v → v body = true) :
    request_with_retries net validator maxRetries retryDelay
      = ⟨ReqResult.success body, 1, []⟩ := by
  have hatt : attemptRequest net validator 0 = Except.ok body := by
    unfold attemptRequest
    rw [hnet]
    cases validator with
    | none => rfl
    | some v => simp [hval v rfl]
  unfold request_with_retries
  rw [hatt]

/-- Witness for C7 at a concrete accepting validator and first-attempt success. -/
theorem requestFirstSuccess_C7_witness :
    request_with_retries netAlwaysOk (some fun b => decide (0 < b)) 3 1
      = ⟨ReqResult.success 7, 1, []⟩ :=
  requestFirstSuccess_C7 netAlwaysOk (some fun b => decide (0 < b)) 3 1 7 rfl
    (by intro v hv; cases hv; decide)

/-- Per-client rate limiter state (base.py line 45): the timestamp recorded by
the last call to `_rate_limit`, initialised to 0. -/
structure RateState where
  lastRequestTime : ℚ
deriving DecidableEq

/-- Lines 47-62 of base.py, `_rate_limit`: `now` is the value of `time.time()`
read at line 54; `elapsed = now - last`; if `elapsed < min_interval` the caller
sleeps for the remainder; then `time.time()` is re-read at line 62 and stored.
`lag ≥ 0` accounts for sleep overshoot and scheduler delay between the sleep
(or the first read) and the second read; with `lag = 0` the model is the
idealised clock. Returns the new state, whose `lastRequestTime` is the dispatch
timestamp of this request. -/
def rate_limit (minInterval : ℚ) (st : RateState) (now lag : ℚ) : RateState :=
  let elapsed := now - st.lastRequestTime
  if elapsed < minInterval then
    ⟨now + (minInterval - elapsed) + lag⟩
  else
    ⟨now + lag⟩

/-- One `_rate_limit` call spaces its recorded dispatch timestamp at least
`minInterval` after the previously recorded one, for any clock reading. -/
lemma rate_limit_spacing_step (minInterval : ℚ) (st : RateState) (now lag : ℚ)
    (hlag : 0 ≤ lag) :
    minInterval ≤ (rate_limit minInterval st now lag).lastRequestTime
      - st.lastRequestTime := by
  unfold rate_limit
  by_cases h : now - st.lastRequestTime < minInterval
  · simp only [h, if_pos]
    linarith
  · simp only [h, if_neg, not_false_eq_true]
    push_neg at h
    linarith

/-- Claim C8: for two consecutive calls on the same client, the second dispatch
timestamp minus the first is at least `min_interval`, however the two calls are
spaced: the rate limiter blocks the second caller for the remainder. (The first
call is represented by an arbitrary prior state `st`; its dispatch timestamp is
`(rate_limit minInterval st now1 lag1).lastRequestTime`.) -/
theorem rateLimitSpacing_C8 (minInterval : ℚ) (st : RateState)
    (now1 lag1 now2 lag2 : ℚ) (hlag2 : 0 ≤ lag2) :
    minInterval ≤
      (rate_limit minInterval (rate_limit minInterval st now1 lag1) now2 lag2).lastRequestTime
        - (rate_limit minInterval st now1 lag1).lastRequestTime :=
  rate_limit_spacing_step minInterval (rate_limit minInterval st now1 lag1) now2 lag2 hlag2

/-- Witness for C8: a back-to-back second call one tenth of a time unit after
the first still dispatches at least `1` apart. -/
theorem rateLimitSpacing_C8_witness :
    (1 : ℚ) ≤
      (rate_limit 1 (rate_limit 1 ⟨0⟩ 0 0) (1 / 10) 0).lastRequestTime
        - (rate_limit 1 ⟨0⟩ 0 0).lastRequestTime :=
  rateLimitSpacing_C8 1 ⟨0⟩ 0 0 (1 / 10) 0 le_rfl

/-- Status values written into a task record by async_utils.py. -/
inductive TaskStatus where
  | running
  | completed
  | failed
deriving DecidableEq

instance {ε α : Type} [DecidableEq ε] [DecidableEq α] : DecidableEq (Except ε α) := fun a b =>
  match a, b with
  | Except.ok x, Except.ok y =>
    if h : x = y then isTrue (by rw [h]) else isFalse (by intro hc; cases hc; exact h rfl)
  | Except.ok _, Except.error _ => isFalse (by intro hc; cases hc)
  | Except.error _, Except.ok _ => isFalse (by intro hc; cases hc)
  | Except.error x, Except.error y =>
    if h : x = y then isTrue (by rw [h]) else isFalse (by intro hc; cases hc; exact h rfl)

/-- One entry of `BackgroundTaskProcessor.tasks` together with a model of the
future stored in it: `outcome` is what `future.result()` will eventually
produce (`Except.error e` models the submitted work raising an exception whose
`str` is `e`), `duration` is the remaining running time of the work at
submission, and `callbackRan` records whether the future has completed and its
done-callback has run (the model applies `_task_done_callback` at the same
step the future completes; `concurrent.futures` invokes it exactly once). -/
structure TaskRecord (ρ : Type) where
  status : TaskStatus
  result : Option ρ
  error : Option String
  outcome : Except String ρ
  duration : ℚ
  callbackRan : Bool
deriving DecidableEq

/-- The mutable state of one `BackgroundTaskProcessor`: the `tasks` dict as an
insertion-ordered association list keyed by task id, and `task_counter`. -/
structure Processor (ρ : Type) where
  tasks : List (Nat × TaskRecord ρ)
  taskCounter : Nat
deriving DecidableEq

/-- A freshly constructed `BackgroundTaskProcessor`: empty task dict, counter 0. -/
def procInit (ρ : Type) : Processor ρ := ⟨[], 0⟩

/-- Dict lookup `self.tasks[task_id]` (first match). -/
def lookupTask {ρ : Type} : List (Nat × TaskRecord ρ) → Nat → Option (TaskRecord ρ)
  | [], _ => none
  | (k, v) :: rest, i => if k = i then some v else lookupTask rest i

/-- Dict update `self.tasks[task_id] = record` for a key already present
(first match replaced). -/
def updateTask {ρ : Type} : List (Nat × TaskRecord ρ) → Nat → TaskRecord ρ →
    List (Nat × TaskRecord ρ)
  | [], _, _ => []
  | (k, v) :: rest, i, v' =>
    if k = i then (k, v') :: rest else (k, v) :: updateTask rest i v'

/-- Lines 153-186 of async_utils.py, `submit_task`: under `self.lock` the task
id is read from the counter and the counter incremented; the work is handed to
the executor (its eventual outcome `o` and running time `d` parametrise the
model); a record `{status: running, result: None, error: None}` is registered
and the done-callback installed. Returns the new state and the task id. -/
def submit_task {ρ : Type} (p : Processor ρ) (o : Except String ρ) (d : ℚ) :
    Processor ρ × Nat :=
  let taskId := p.taskCounter
  let record : TaskRecord ρ := ⟨TaskStatus.running, none, none, o, d, false⟩
  (⟨p.tasks ++ [(taskId, record)], p.taskCounter + 1⟩, taskId)

/-- Lines 188-204 of async_utils.py, `_task_done_callback`: `future.result()`
either returns a value, which is stored and the status flipped to `completed`,
or raises, in which case `str(e)` is stored in `error` and the status flipped
to `failed`. -/
def _task_done_callback {ρ : Type} (record : TaskRecord ρ) : TaskRecord ρ :=
  match record.outcome with
  | Except.ok r =>
    { record with result := some r, status := TaskStatus.completed, callbackRan := true }
  | Except.error e =>
    { record with error := some e, status := TaskStatus.failed, callbackRan := true }

/-- The point-in-time dict returned by `get_task_status`. -/
structure StatusSnapshot (ρ : Type) where
  task_id : Nat
  status : TaskStatus
  result : Option ρ
  error : Option String
deriving DecidableEq

/-- Lines 206-228 of async_utils.py, `get_task_status`: raises `KeyError` for
an id not in the dict; otherwise returns a snapshot whose `result` is masked to
`None` unless the status is `completed` and whose `error` is masked to `None`
unless the status is `failed`. -/
def get_task_status {ρ : Type} (p : Processor ρ) (taskId : Nat) :
    Except PyExc (StatusSnapshot ρ) :=
  match lookupTask p.tasks taskId with
  | none => Except.error (PyExc.keyError s!"Task {taskId} not found")
  | some t =>
    Except.ok ⟨taskId, t.status,
      if t.status = TaskStatus.completed then t.result else none,
      if t.status = TaskStatus.failed then t.error else none⟩

/-- How a call to `wait_for_task` terminates. `raisedWork e` is the submitted
work's own exception re-raised in the waiting caller by `future.result()` at
line 251 (only `TimeoutError` is caught there). -/
inductive WaitResult (ρ : Type) where
  | snapshot (s : StatusSnapshot ρ)
  | raisedKeyError (msg : String)
  | raisedTimeout (msg : String)
  | raisedWork (e : String)
deriving DecidableEq

/-- The branch of `wait_for_task` in which the future completes during the
wait: the done-callback runs, then `future.result()` re-raises the work's
exception (uncaught) or returns, after which `get_task_status` is called. -/
def wait_finish {ρ : Type} (p : Processor ρ) (taskId : Nat) (record : TaskRecord ρ) :
    Processor ρ × WaitResult ρ :=
  let p' : Processor ρ := ⟨updateTask p.tasks taskId (_task_done_callback record), p.taskCounter⟩
  match record.outcome with
  | Except.error e => (p', WaitResult.raisedWork e)
  | Except.ok _ =>
    match get_task_status p' taskId with
    | Except.ok s => (p', WaitResult.snapshot s)
    | Except.error _ => (p', WaitResult.raisedKeyError s!"Task {taskId} not found")

/-- Lines 230-255 of async_utils.py, `wait_for_task`: raises `KeyError` for an
unknown id; otherwise blocks on `future.result(timeout)`. If the future is not
yet terminal and the timeout elapses first (`t < duration`), `TimeoutError` is
caught and re-raised with a message — the task itself keeps running, the state
is unchanged. Otherwise the future reaches its terminal state during the wait
(the model applies the done-callback then): `future.result()` re-raises the
work's exception if the work raised — this propagates, since only
`TimeoutError` is caught — else returns, and `get_task_status` supplies the
snapshot. Returns the possibly advanced state and the call's outcome. -/
def wait_for_task {ρ : Type} (p : Processor ρ) (taskId : Nat)
    (timeout : Option ℚ) : Processor ρ × WaitResult ρ :=
  match lookupTask p.tasks taskId with
  | none => (p, WaitResult.raisedKeyError s!"Task {taskId} not found")
  | some record =>
    if record.callbackRan then
      match record.outcome with
      | Except.error e => (p, WaitResult.raisedWork e)
      | Except.ok _ =>
        match get_task_status p taskId with
        | Except.ok s => (p, WaitResult.snapshot s)
        | Except.error _ => (p, WaitResult.raisedKeyError s!"Task {taskId} not found")
    else
      match timeout with
      | some t =>
        if t < record.duration then
          (p, WaitResult.raisedTimeout s!"Task {taskId} did not complete within the timeout")
        else
          wait_finish p taskId record
      | none => wait_finish p taskId record

/-- Concurrent evolution of one processor instance: either a caller submits new
work, or a running future reaches its terminal state and `concurrent.futures`
invokes the registered done-callback — exactly once per future, which the
guard `callbackRan = false` records. -/
inductive Step {ρ : Type} : Processor ρ → Processor ρ → Prop where
  | submit (p : Processor ρ) (o : Except String ρ) (d : ℚ) :
      Step p (submit_task p o d).1
  | finish (p : Processor ρ) (taskId : Nat) (record : TaskRecord ρ) :
      lookupTask p.tasks taskId = some record → record.callbackRan = false →
      Step p ⟨updateTask p.tasks taskId (_task_done_callback record), p.taskCounter⟩

/-- Processor states reachable from a freshly constructed processor. -/
inductive Reachable {ρ : Type} : Processor ρ → Prop where
  | init : Reachable (procInit ρ)
  | step {p p' : Processor ρ} : Reachable p → Step p p' → Reachable p'

lemma lookupTask_append_of_some {ρ : Type} {l l' : List (Nat × TaskRecord ρ)} {i : Nat}
    {v : TaskRecord ρ} (h : lookupTask l i = some v) : lookupTask (l ++ l') i = some v := by
  induction l with
  | nil => simp [lookupTask] at h
  | cons kv rest ih =>
    obtain ⟨k, w⟩ := kv
    by_cases hk : k = i
    · simp [lookupTask, hk] at h ⊢
      exact h
    · simp [lookupTask, hk] at h ⊢
      exact ih h

lemma lookupTask_append_of_none {ρ : Type} {l : List (Nat × TaskRecord ρ)}
    (l' : List (Nat × TaskRecord ρ)) {i : Nat} (h : lookupTask l i = none) :
    lookupTask (l ++ l') i = lookupTask l' i := by
  induction l with
  | nil => simp
  | cons kv rest ih =>
    obtain ⟨k, w⟩ := kv
    by_cases hk : k = i
    · simp [lookupTask, hk] at h
    · simp [lookupTask, hk] at h ⊢
      exact ih h

lemma lookupTask_updateTask_self {ρ : Type} (l : List (Nat × TaskRecord ρ)) (i : Nat)
    (v' : TaskRecord ρ) :
    lookupTask (updateTask l i v') i = (lookupTask l i).map (fun _ => v') := by
  induction l with
  | nil => simp [lookupTask, updateTask]
  | cons kv rest ih =>
    obtain ⟨k, w⟩ := kv
    by_cases hk : k = i
    · simp [lookupTask, updateTask, hk]
    · simp [lookupTask, updateTask, hk, ih]

lemma lookupTask_updateTask_ne {ρ : Type} (l : List (Nat × TaskRecord ρ)) {i j : Nat}
    (v' : TaskRecord ρ) (h : j ≠ i) :
    lookupTask (updateTask l i v') j = lookupTask l j := by
  induction l with
  | nil => simp [updateTask]
  | cons kv rest ih =>
    obtain ⟨k, w⟩ := kv
    by_cases hk : k = i
    · subst hk
      have hkj : ¬ k = j := fun hc => h hc.symm
      simp [lookupTask, updateTask, hkj]
    · by_cases hkj : k = j <;> simp [lookupTask, updateTask, hk, hkj, h, ih]

/-- Record-level invariant: before the done-callback has run the record is
exactly as registered at submission (running, no result, no error); after it
the status is terminal. -/
def recordInv {ρ : Type} (record : TaskRecord ρ) : Prop :=
  (record.callbackRan = false →
    record.status = TaskStatus.running ∧ record.result = none ∧ record.error = none) ∧
  (record.callbackRan = true → record.status ≠ TaskStatus.running)

/-- Processor invariant: every registered record satisfies `recordInv` and its
id was allocated below the current counter. -/
def procInv {ρ : Type} (p : Processor ρ) : Prop :=
  ∀ i record, lookupTask p.tasks i = some record → recordInv record ∧ i < p.taskCounter

lemma recordInv_callback {ρ : Type} (record : TaskRecord ρ) :
    recordInv (_task_done_callback record) := by
  unfold recordInv _task_done_callback
  cases record.outcome <;> simp

lemma procInv_of_reachable {ρ : Type} {p : Processor ρ} (hr : Reachable p) : procInv p := by
  induction hr with
  | init => intro i record h; simp [procInit, lookupTask] at h
  | step _ hstep ih =>
    cases hstep with
    | submit o d =>
      intro i record h
      simp only [submit_task] at h
      rename_i p _
      cases hl : lookupTask p.tasks i with
      | some v =>
        rw [lookupTask_append_of_some hl] at h
        cases h
        exact ⟨(ih i record hl).1, Nat.lt_succ_of_lt (ih i record hl).2⟩
      | none =>
        rw [lookupTask_append_of_none _ hl] at h
        by_cases hk : p.taskCounter = i
        · simp [lookupTask, hk] at h
          subst h
          subst hk
          exact ⟨⟨fun _ => ⟨rfl, rfl, rfl⟩, fun hc => by simp at hc⟩, Nat.lt_succ_self _⟩
        · simp [lookupTask, hk] at h
    | finish taskId record0 hlook hcb =>
      intro i record h
      rename_i p _
      simp only at h
      by_cases hij : i = taskId
      · subst hij
        rw [lookupTask_updateTask_self, hlook] at h
        simp only [Option.map_some'] at h
        cases h
        exact ⟨recordInv_callback record0, (ih i record0 hlook).2⟩
      · rw [lookupTask_updateTask_ne _ _ hij] at h
        exact ih i record h

/-- Claim C5: a task record starts as `running` with no result and no error at
submission; the done-callback, which runs exactly once, moves it to exactly one
of the terminal statuses (`completed`/`failed`); no step of the system moves a
record out of a terminal status; and every `get_task_status` snapshot has a
non-null `result` only when its status is `completed` and a non-null `error`
only when its status is `failed`. -/
theorem taskLifecycle_C5 {ρ : Type} (p p' : Processor ρ) (taskId : Nat)
    (record : TaskRecord ρ) (s : StatusSnapshot ρ) (o : Except String ρ) (d : ℚ)
    (hr : Reachable p) :
    lookupTask (submit_task p o d).1.tasks (submit_task p o d).2
      = some ⟨TaskStatus.running, none, none, o, d, false⟩ ∧
    (lookupTask p.tasks taskId = some record → record.status = TaskStatus.running →
      record.result = none ∧ record.error = none) ∧
    ((_task_done_callback record).status = TaskStatus.completed ∨
      (_task_done_callback record).status = TaskStatus.failed) ∧
    (_task_done_callback record).callbackRan = true ∧
    (Step p p' → lookupTask p.tasks taskId = some record →
      record.status ≠ TaskStatus.running → lookupTask p'.tasks taskId = some record) ∧
    (get_task_status p taskId = Except.ok s →
      (s.result ≠ none → s.status = TaskStatus.completed) ∧
      (s.error ≠ none → s.status = TaskStatus.failed)) := by
  have hinv := procInv_of_reachable hr
  refine ⟨?_, ?_, ?_, ?_, ?_, ?_⟩
  · simp only [submit_task]
    have hnone : lookupTask p.tasks p.taskCounter = none := by
      cases hl : lookupTask p.tasks p.taskCounter with
      | none => rfl
      | some v => exact absurd (hinv _ _ hl).2 (Nat.lt_irrefl _)
    rw [lookupTask_append_of_none _ hnone]
    simp [lookupTask]
  · intro hlook hrun
    rcases hinv taskId record hlook with ⟨⟨h1, h2⟩, _⟩
    cases hcb : record.callbackRan with
    | false => exact (h1 hcb).2
    | true => exact absurd hrun (h2 hcb)
  · unfold _task_done_callback
    cases record.outcome <;> simp
  · unfold _task_done_callback
    cases record.outcome <;> simp
  · intro hstep hlook hterm
    cases hstep with
    | submit o' d' =>
      simp only [submit_task]
      exact lookupTask_append_of_some hlook
    | finish taskId' record0 hlook0 hcb0 =>
      simp only
      by_cases hij : taskId = taskId'
      · subst hij
        rw [hlook] at hlook0
        cases hlook0
        rcases hinv taskId record hlook with ⟨⟨h1, _⟩, _⟩
        exact absurd (h1 hcb0).1 hterm
      · rw [lookupTask_updateTask_ne _ _ hij]
        exact hlook
  · intro hsnap
    unfold get_task_status at hsnap
    cases hl : lookupTask p.tasks taskId with
    | none => rw [hl] at hsnap; cases hsnap
    | some t =>
      rw [hl] at hsnap
      cases hsnap
      constructor
      · intro hne
        by_cases hc : t.status = TaskStatus.completed
        · exact hc
        · simp [hc] at hne
      · intro hne
        by_cases hc : t.status = TaskStatus.failed
        · exact hc
        · simp [hc] at hne

/-- A processor that has submitted one unit of work which will raise
`ZeroDivisionError` (stored as its `str`) after 1 time unit. -/
def pRunC5 : Processor Nat :=
  (submit_task (procInit Nat) (Except.error "division by zero") 1).1

/-- The record registered for the task of `pRunC5`. -/
def recRunC5 : TaskRecord Nat :=
  ⟨TaskStatus.running, none, none, Except.error "division by zero", 1, false⟩

/-- The record of `pRunC5`'s task after its done-callback has run. -/
def recTermC5 : TaskRecord Nat := _task_done_callback recRunC5

/-- `pRunC5` after its single task finished and the done-callback ran. -/
def pTermC5 : Processor Nat := ⟨updateTask pRunC5.tasks 0 recTermC5, pRunC5.taskCounter⟩

/-- The snapshot `get_task_status` produces for the failed task of `pTermC5`. -/
def sFailC5 : StatusSnapshot Nat := ⟨0, TaskStatus.failed, none, some "division by zero"⟩

lemma reachable_pRunC5 : Reachable pRunC5 :=
  Reachable.step Reachable.init (Step.submit (procInit Nat) (Except.error "division by zero") 1)

lemma reachable_pTermC5 : Reachable pTermC5 :=
  Reachable.step reachable_pRunC5 (Step.finish pRunC5 0 recRunC5 rfl rfl)

/-- Witness for C5 on a concrete reachable processor with one failing task. -/
theorem taskLifecycle_C5_witness :
    lookupTask (submit_task pRunC5 (Except.ok 5) 2).1.tasks
        (submit_task pRunC5 (Except.ok 5) 2).2
      = some ⟨TaskStatus.running, none, none, Except.ok 5, 2, false⟩ ∧
    (recRunC5.result = none ∧ recRunC5.error = none) ∧
    ((_task_done_callback recRunC5).status = TaskStatus.completed ∨
      (_task_done_callback recRunC5).status = TaskStatus.failed) ∧
    lookupTask (submit_task pTermC5 (Except.ok 5) 2).1.tasks 0 = some recTermC5 ∧
    sFailC5.status = TaskStatus.failed := by
  refine ⟨?_, ?_, ?_, ?_, ?_⟩
  · exact (taskLifecycle_C5 pRunC5 pRunC5 0 recRunC5 sFailC5 (Except.ok 5) 2
      reachable_pRunC5).1
  · exact (taskLifecycle_C5 pRunC5 pRunC5 0 recRunC5 sFailC5 (Except.ok 5) 2
      reachable_pRunC5).2.1 rfl rfl
  · exact (taskLifecycle_C5 pRunC5 pRunC5 0 recRunC5 sFailC5 (Except.ok 5) 2
      reachable_pRunC5).2.2.1
  · exact (taskLifecycle_C5 pTermC5 (submit_task pTermC5 (Except.ok 5) 2).1 0 recTermC5
      sFailC5 (Except.ok 5) 2 reachable_pTermC5).2.2.2.2.1
      (Step.submit pTermC5 (Except.ok 5) 2) rfl (by decide)
  · exact ((taskLifecycle_C5 pTermC5 pTermC5 0 recTermC5 sFailC5 (Except.ok 5) 2
      reachable_pTermC5).2.2.2.2.2 rfl).2 (by simp [sFailC5])

/-- Repeated `submit_task` calls, returning the final state and the list of the
ids handed back, in call order. -/
def submitAll {ρ : Type} : Processor ρ → List (Except String ρ × ℚ) → Processor ρ × List Nat
  | p, [] => (p, [])
  | p, w :: ws =>
    ((submitAll (submit_task p w.1 w.2).1 ws).1,
      (submit_task p w.1 w.2).2 :: (submitAll (submit_task p w.1 w.2).1 ws).2)

lemma submitAll_ids {ρ : Type} (ws : List (Except String ρ × ℚ)) (p : Processor ρ) :
    (submitAll p ws).2 = List.range' p.taskCounter ws.length := by
  induction ws generalizing p with
  | nil => simp [submitAll]
  | cons w ws ih => simp [submitAll, List.range'_succ, ih, submit_task]

/-- Claim C6: any sequence of `submit_task` calls returns the consecutive
counter values, hence distinct and strictly increasing ids; each id is the
read-and-increment of the counter (performed under `self.lock`, which the
sequential model renders as the atomicity of `submit_task`); and an id already
issued is below the counter, so it is never reused. -/
theorem submitIds_C6 {ρ : Type} (p : Processor ρ) (ws : List (Except String ρ × ℚ))
    (usedId : Nat) (o : Except String ρ) (d : ℚ) (hr : Reachable p)
    (hused : lookupTask p.tasks usedId ≠ none) :
    (submitAll p ws).2 = List.range' p.taskCounter ws.length ∧
    List.Pairwise (· < ·) (submitAll p ws).2 ∧
    (submit_task p o d).2 = p.taskCounter ∧
    (submit_task p o d).1.taskCounter = p.taskCounter + 1 ∧
    usedId < p.taskCounter ∧
    usedId ∉ (submitAll p ws).2 := by
  have hlt : usedId < p.taskCounter := by
    cases hl : lookupTask p.tasks usedId with
    | none => exact absurd hl hused
    | some v => exact (procInv_of_reachable hr usedId v hl).2
  refine ⟨submitAll_ids ws p, ?_, rfl, rfl, hlt, ?_⟩
  · rw [submitAll_ids]
    exact List.pairwise_lt_range' _ _
  · rw [submitAll_ids]
    intro hmem
    rw [List.mem_range'_1] at hmem
    omega

/-- The submissions used by the C6 witness. -/
def wsC6 : List (Except String Nat × ℚ) := [(Except.ok 3, 1), (Except.error "x", 2)]

/-- Witness for C6: after one task (id 0) is registered, two further submissions
return ids `[1, 2]` — increasing, distinct, and not reusing id 0. -/
theorem submitIds_C6_witness :
    (submitAll pRunC5 wsC6).2 = [1, 2] ∧
    List.Pairwise (· < ·) (submitAll pRunC5 wsC6).2 ∧
    (0 : Nat) ∉ (submitAll pRunC5 wsC6).2 := by
  have h := submitIds_C6 pRunC5 wsC6 0 (Except.ok 9) 5 reachable_pRunC5 (by decide)
  exact ⟨by rw [h.1]; rfl, h.2.1, h.2.2.2.2.2⟩

/-- Claim C4: the claim states that `wait_for_task` raises `KeyError` for an
unknown id, raises on deadline expiry with the task running on, and otherwise
returns a snapshot — in particular a `failed` snapshot when the work raised.
The code does raise `KeyError` for the unknown id and a `TimeoutError` on
expiry with the task unaffected; but for work that raised, `future.result()`
at line 251 re-raises the work's own exception in the waiting caller (only
`TimeoutError` is caught), so `wait_for_task` propagates it instead of
returning the `failed` snapshot that `get_task_status` would produce. -/
theorem waitPropagates_C4 :
    (wait_for_task pRunC5 0 none).2 = WaitResult.raisedWork "division by zero" ∧
    (wait_for_task pRunC5 0 none).2 ≠ WaitResult.snapshot sFailC5 ∧
    get_task_status (wait_for_task pRunC5 0 none).1 0 = Except.ok sFailC5 ∧
    (wait_for_task pRunC5 99 none).2 = WaitResult.raisedKeyError "Task 99 not found" ∧
    (wait_for_task pRunC5 0 (some 0)).2
      = WaitResult.raisedTimeout "Task 0 did not complete within the timeout" ∧
    get_task_status (wait_for_task pRunC5 0 (some 0)).1 0
      = Except.ok ⟨0, TaskStatus.running, none, none⟩ := by
  refine ⟨rfl, by decide, rfl, rfl, by decide, by decide⟩

/-- Phase of one operation inside `gather_with_concurrency` (async_utils.py
lines 114-135): `pending` is a `sem_task` wrapper whose inner awaitable has not
started because the semaphore has not admitted it; `holding` has acquired the
semaphore and is awaiting the wrapped task; `done r` has settled with result
`r` and released the semaphore (the `async with` block releases on success and
on failure alike, so `r` may itself encode a failure value). -/
inductive OpPhase (ρ : Type) where
  | pending
  | holding
  | done (r : ρ)
deriving DecidableEq

/-- State of one `gather_with_concurrency` run: the free permits of
`asyncio.Semaphore(concurrency)` and the phase of each wrapped operation, in
submission order. -/
structure GatherState (ρ : Type) where
  permits : Nat
  phases : List (OpPhase ρ)
deriving DecidableEq

/-- The state right after `gather` wraps every awaitable in `sem_task`: all
operations pending, all permits free. `ops` lists the value each operation
produces when awaited. -/
def initGather {ρ : Type} (concurrency : Nat) (ops : List ρ) : GatherState ρ :=
  ⟨concurrency, ops.map fun _ => OpPhase.pending⟩

/-- Cooperative-scheduler step of `gather_with_concurrency`: a pending wrapper
may acquire the semaphore when a permit is free (`async with semaphore` entry),
and a holding wrapper may settle with its operation's value, releasing its
permit (`async with` exit). These are the only suspension points. -/
inductive GStep {ρ : Type} (ops : List ρ) : GatherState ρ → GatherState ρ → Prop where
  | acquire (s : GatherState ρ) (i : Nat) :
      s.phases[i]? = some OpPhase.pending → 0 < s.permits →
      GStep ops s ⟨s.permits - 1, s.phases.set i OpPhase.holding⟩
  | complete (s : GatherState ρ) (i : Nat) (r : ρ) :
      s.phases[i]? = some OpPhase.holding → ops[i]? = some r →
      GStep ops s ⟨s.permits + 1, s.phases.set i (OpPhase.done r)⟩

/-- States reachable during a `gather_with_concurrency concurrency *ops` run. -/
inductive GReachable {ρ : Type} (concurrency : Nat) (ops : List ρ) : GatherState ρ → Prop where
  | init : GReachable concurrency ops (initGather concurrency ops)
  | step {s s' : GatherState ρ} :
      GReachable concurrency ops s → GStep ops s s' → GReachable concurrency ops s'

/-- Whether a phase currently holds an admission token. -/
def isHolding {ρ : Type} : OpPhase ρ → Bool
  | OpPhase.holding => true
  | _ => false

/-- Number of operations currently holding an admission token. -/
def countHolding {ρ : Type} (s : GatherState ρ) : Nat :=
  s.phases.countP isHolding

/-- The ordered result list `asyncio.gather` assembles once every wrapper has
settled: `some` of the results in submission order, or `none` if some wrapper
has not settled yet. -/
def collectDone {ρ : Type} : List (OpPhase ρ) → Option (List ρ)
  | [] => some []
  | OpPhase.done r :: rest => (collectDone rest).map (r :: ·)
  | OpPhase.pending :: _ => none
  | OpPhase.holding :: _ => none

lemma countP_set {α : Type} (f : α → Bool) (l : List α) (i : Nat) (a b : α)
    (h : l[i]? = some a) :
    (l.set i b).countP f + (if f a then 1 else 0)
      = l.countP f + (if f b then 1 else 0) := by
  induction l generalizing i with
  | nil => simp at h
  | cons x xs ih =>
    cases i with
    | zero =>
      simp at h
      subst h
      simp [List.set, List.countP_cons]
      split_ifs <;> omega
    | succ n =>
      simp at h
      simp only [List.set, List.countP_cons]
      have := ih n h
      split_ifs at this ⊢ <;> omega

/-- The run invariant: tokens held plus free permits equal the configured
concurrency; the phase list covers all operations; and a settled operation
carries exactly its operation's value. -/
def gatherInv {ρ : Type} (concurrency : Nat) (ops : List ρ) (s : GatherState ρ) : Prop :=
  countHolding s + s.permits = concurrency ∧
  s.phases.length = ops.length ∧
  ∀ (i : Nat) (r : ρ), s.phases[i]? = some (OpPhase.done r) → ops[i]? = some r

lemma countP_map_pending {ρ : Type} (ops : List ρ) :
    (ops.map fun _ => (OpPhase.pending : OpPhase ρ)).countP isHolding = 0 := by
  induction ops with
  | nil => rfl
  | cons x xs ih => simp [List.countP_cons, isHolding, ih]

lemma gatherInv_of_reachable {ρ : Type} {concurrency : Nat} {ops : List ρ}
    {s : GatherState ρ} (hr : GReachable concurrency ops s) :
    gatherInv concurrency ops s := by
  induction hr with
  | init =>
    refine ⟨?_, by simp [initGather], ?_⟩
    · show (List.map (fun _ => (OpPhase.pending : OpPhase ρ)) ops).countP isHolding
          + concurrency = concurrency
      rw [countP_map_pending]
      exact Nat.zero_add concurrency
    · intro i r h
      simp only [initGather, List.getElem?_map] at h
      cases ops[i]? <;> simp at h
  | step _ hstep ih =>
    obtain ⟨h1, h2, h3⟩ := ih
    cases hstep with
    | acquire i hp hperm =>
      rename_i s _
      have hcnt := countP_set isHolding s.phases i OpPhase.pending OpPhase.holding hp
      simp [isHolding] at hcnt
      refine ⟨?_, by simp [h2], ?_⟩
      · simp only [countHolding] at h1 ⊢
        omega
      · intro j r h
        by_cases hij : i = j
        · subst hij
          have hlen : i < s.phases.length := by
            obtain ⟨hlt, -⟩ := List.getElem?_eq_some_iff.mp hp
            exact hlt
          rw [List.getElem?_set_self hlen] at h
          cases h
        · rw [List.getElem?_set_ne hij] at h
          exact h3 j r h
    | complete i r0 hh hop =>
      rename_i s _
      have hcnt := countP_set isHolding s.phases i OpPhase.holding (OpPhase.done r0) hh
      simp [isHolding] at hcnt
      refine ⟨?_, by simp [h2], ?_⟩
      · simp only [countHolding] at h1 ⊢
        omega
      · intro j r h
        by_cases hij : i = j
        · subst hij
          have hlen : i < s.phases.length := by
            obtain ⟨hlt, -⟩ := List.getElem?_eq_some_iff.mp hh
            exact hlt
          rw [List.getElem?_set_self hlen] at h
          cases h
          exact hop
        · rw [List.getElem?_set_ne hij] at h
          exact h3 j r h

lemma collectDone_eq_map {ρ : Type} {phases : List (OpPhase ρ)} {l : List ρ}
    (h : collectDone phases = some l) : phases = l.map OpPhase.done := by
  induction phases generalizing l with
  | nil =>
    simp [collectDone] at h
    subst h
    rfl
  | cons ph rest ih =>
    cases ph with
    | pending => simp [collectDone] at h
    | holding => simp [collectDone] at h
    | done r =>
      simp only [collectDone] at h
      cases hrest : collectDone rest with
      | none => rw [hrest] at h; simp at h
      | some rest' =>
        rw [hrest] at h
        simp at h
        subst h
        simp [ih hrest]

/-- Claim C9: in every reachable state of a `gather_with_concurrency K *ops`
run, at most `K` operations hold an admission token (tokens held plus free
permits always equal `K`: a token is acquired before the wrapped task starts
and released when it settles), and once every operation has settled the
assembled result list equals the operations' values in submission order. -/
theorem gatherConcurrency_C9 {ρ : Type} (concurrency : Nat) (ops : List ρ)
    (s : GatherState ρ) (l : List ρ) (hr : GReachable concurrency ops s) :
    countHolding s ≤ concurrency ∧
    countHolding s + s.permits = concurrency ∧
    (collectDone s.phases = some l → l = ops) := by
  obtain ⟨h1, h2, h3⟩ := gatherInv_of_reachable hr
  refine ⟨by omega, h1, ?_⟩
  intro hc
  have hmap : s.phases = l.map OpPhase.done := collectDone_eq_map hc
  have hlen : l.length = ops.length := by
    rw [← h2, hmap, List.length_map]
  apply List.ext_getElem?
  intro n
  cases hn : l[n]? with
  | some x =>
    have hph : s.phases[n]? = some (OpPhase.done x) := by
      rw [hmap, List.getElem?_map, hn]
      rfl
    rw [h3 n x hph]
  | none =>
    have : ops.length ≤ n := by
      rw [← hlen]
      exact List.getElem?_eq_none_iff.mp hn
    exact (List.getElem?_eq_none this).symm

/-- The operations of the C9 witness run. -/
def opsC9 : List Nat := [10, 20]

lemma greachable_sC9 :
    GReachable 1 opsC9 ⟨1, [OpPhase.done 10, OpPhase.done 20]⟩ := by
  have h0 : GReachable 1 opsC9 (initGather 1 opsC9) := GReachable.init
  have h1 := GReachable.step h0 (GStep.acquire (initGather 1 opsC9) 0 rfl (by decide))
  have h2 := GReachable.step h1 (GStep.complete _ 0 10 rfl rfl)
  have h3 := GReachable.step h2 (GStep.acquire _ 1 rfl (by decide))
  exact GReachable.step h3 (GStep.complete _ 1 20 rfl rfl)

/-- Witness for C9: a complete run of two operations at concurrency 1 ends with
no token held (≤ 1) and assembles `[10, 20]` in submission order. -/
theorem gatherConcurrency_C9_witness :
    countHolding (⟨1, [OpPhase.done 10, OpPhase.done 20]⟩ : GatherState Nat) ≤ 1 ∧
    [10, 20] = opsC9 := by
  have h := gatherConcurrency_C9 1 opsC9 ⟨1, [OpPhase.done 10, OpPhase.done 20]⟩
    [10, 20] greachable_sC9
  exact ⟨h.1, h.2.2 rfl⟩

/-- JSON-shaped values as produced by `response.json()`. -/
inductive Json where
  | null
  | str (s : String)
  | num (n : Int)
  | arr (xs : List Json)
  | obj (fields : List (String × Json))

/-- First-match lookup in a JSON object's field list. -/
def lookupField : List (String × Json) → String → Option Json
  | [], _ => none
  | (k, v) :: rest, key => if k = key then some v else lookupField rest key

/-- Python `response[key]` / `key in response` resolution for dicts; non-dict
values yield `none` (the bodies this development exercises are dicts, where
Python `in` is key membership). -/
def Json.lookup : Json → String → Option Json
  | Json.obj fields, key => lookupField fields key
  | _, _ => none

/-- Python truthiness, as tested by `if not response["choices"]` (line 62 of
openrouter_api.py). -/
def Json.isTruthy : Json → Bool
  | Json.null => false
  | Json.str s => !s.isEmpty
  | Json.num n => n != 0
  | Json.arr xs => !xs.isEmpty
  | Json.obj fields => !fields.isEmpty

/-- Python `value[0]` for a JSON array; other shapes yield `none` (a truthy
string's first character, or a dict's `[0]` `KeyError`, neither of which makes
the validator accept). -/
def Json.index0 : Json → Option Json
  | Json.arr xs => xs.head?
  | _ => none

/-- Python `key in value` for a dict; `false` on other shapes (see
`Json.lookup`). -/
def Json.hasKey (v : Json) (key : String) : Bool :=
  (Json.lookup v key).isSome

/-- Lines 48-70 of openrouter_api.py, `_validate_completion_response`: requires
a `choices` key, a truthy `choices` value, and a `text` key in the first
choice. -/
def _validate_completion_response (response : Json) : Bool :=
  match response.lookup "choices" with
  | none => false
  | some choices =>
    if !choices.isTruthy then false
    else
      match choices.index0 with
      | none => false
      | some first => first.hasKey "text"

/-- The fixed fallback string returned by `generate_completion` on any error. -/
def fallbackSummary : String := "Summary not available."

/-- The value of `response["choices"][0]["text"]` when each access succeeds. -/
def firstChoiceText (response : Json) : Option Json :=
  match response.lookup "choices" with
  | none => none
  | some choices =>
    match choices.index0 with
    | none => none
    | some first => first.lookup "text"

/-- Lines 119-129 of openrouter_api.py, `generate_completion`: posts via
`request_with_retries` with `_validate_completion_response` as validator, then
returns `response["choices"][0]["text"].strip()`. Every failure inside the try
block — the request raising, the post returning `None` (subscripting `None`
raises `TypeError`), a missing key (`KeyError`), or a non-string `text` value
(`.strip()` raises `AttributeError`) — is caught by `except Exception` and
replaced by the fixed fallback string. -/
def generate_completion (net : Nat → NetOutcome Json) (maxRetries retryDelay : Nat) :
    String :=
  match (request_with_retries net (some _validate_completion_response)
      maxRetries retryDelay).result with
  | ReqResult.success response =>
    match firstChoiceText response with
    | some (Json.str t) => t.trim
    | _ => fallbackSummary
  | ReqResult.returnedNone => fallbackSummary
  | ReqResult.raised _ => fallbackSummary

lemma request_success_validator {α : Type} (net : Nat → NetOutcome α) (v : α → Bool)
    (maxRetries retryDelay : Nat) (body : α)
    (h : (request_with_retries net (some v) maxRetries retryDelay).result
      = ReqResult.success body) :
    v body = true := by
  unfold request_with_retries at h
  cases hatt : attemptRequest net (some v) 0 with
  | ok data =>
    rw [hatt] at h
    have hdata : data = body := by simpa using h
    subst hdata
    unfold attemptRequest at hatt
    cases hnet : net 0 with
    | sendError m => rw [hnet] at hatt; cases hatt
    | decodeError m => rw [hnet] at hatt; cases hatt
    | ok b =>
      rw [hnet] at hatt
      by_cases hv : v b = true
      · simp only [hv, if_true] at hatt
        cases hatt
        exact hv
      · simp [hv] at hatt
  | error e =>
    rw [hatt] at h
    by_cases hmr : 0 < maxRetries <;> simp [hmr] at h

lemma validate_implies_text (response : Json)
    (hv : _validate_completion_response response = true) :
    (firstChoiceText response).isSome = true := by
  unfold _validate_completion_response at hv
  unfold firstChoiceText
  cases hc : Json.lookup response "choices" with
  | none =>
    rw [hc] at hv
    simp at hv
  | some choices =>
    rw [hc] at hv
    show (match choices.index0 with
      | none => none
      | some first => Json.lookup first "text").isSome = true
    by_cases ht : choices.isTruthy
    · simp only [ht, Bool.not_true, Bool.false_eq_true, if_false] at hv
      cases hi : choices.index0 with
      | none => rw [hi] at hv; simp at hv
      | some first =>
        rw [hi] at hv
        unfold Json.hasKey at hv
        exact hv
    · simp [ht] at hv

/-- Claim C10: `generate_completion` never raises — in the model it is a total
function into strings — and: a raised request or a `None` return from the post
yields the fixed fallback string; a successful post implies the validator
accepted the body, so its first choice has a `text` field; and when that field
is a string the stripped (`str.strip` = trim) text is returned. -/
theorem generateCompletionFallback_C10 (net : Nat → NetOutcome Json)
    (maxRetries retryDelay : Nat) (e : PyExc) (response : Json) (t : String) :
    ((request_with_retries net (some _validate_completion_response) maxRetries
        retryDelay).result = ReqResult.raised e →
      generate_completion net maxRetries retryDelay = fallbackSummary) ∧
    ((request_with_retries net (some _validate_completion_response) maxRetries
        retryDelay).result = ReqResult.returnedNone →
      generate_completion net maxRetries retryDelay = fallbackSummary) ∧
    ((request_with_retries net (some _validate_completion_response) maxRetries
        retryDelay).result = ReqResult.success response →
      _validate_completion_response response = true) ∧
    (_validate_completion_response response = true →
      (firstChoiceText response).isSome = true) ∧
    ((request_with_retries net (some _validate_completion_response) maxRetries
        retryDelay).result = ReqResult.success response →
      firstChoiceText response = some (Json.str t) →
      generate_completion net maxRetries retryDelay = t.trim) := by
  refine ⟨?_, ?_, ?_, validate_implies_text response, ?_⟩
  · intro h
    unfold generate_completion
    rw [h]
  · intro h
    unfold generate_completion
    rw [h]
  · intro h
    exact request_success_validator net _validate_completion_response
      maxRetries retryDelay response h
  · intro h htext
    unfold generate_completion
    rw [h]
    show (match firstChoiceText response with
      | some (Json.str s) => s.trim
      | _ => fallbackSummary) = t.trim
    rw [htext]

/-- A well-formed completion body with one choice whose text has surrounding
whitespace. -/
def goodBody : Json :=
  Json.obj [("choices", Json.arr [Json.obj [("text", Json.str "  A summary.  ")]])]

/-- A network that always answers with `goodBody`. -/
def goodNet : Nat → NetOutcome Json := fun _ => NetOutcome.ok goodBody

/-- A network whose sends always fail. -/
def badNet : Nat → NetOutcome Json := fun _ => NetOutcome.sendError "boom"

/-- Witness for C10: on a good body the stripped text of the first choice is
returned; the validator accepts the good body; on a failing request the fixed
fallback string is returned. -/
theorem generateCompletionFallback_C10_witness :
    generate_completion goodNet 0 1 = ("  A summary.  ").trim ∧
    _validate_completion_response goodBody = true ∧
    generate_completion badNet 0 1 = fallbackSummary := by
  refine ⟨?_, ?_, ?_⟩
  · exact (generateCompletionFallback_C10 goodNet 0 1 (PyExc.valueError "")
      goodBody "  A summary.  ").2.2.2.2 rfl rfl
  · exact (generateCompletionFallback_C10 goodNet 0 1 (PyExc.valueError "")
      goodBody "  A summary.  ").2.2.1 rfl
  · exact (generateCompletionFallback_C10 badNet 0 1 (PyExc.requestExc "boom")
      goodBody "  A summary.  ").1 rfl

end NewsFetcher
